import Mathlib

/-!
Verification of the data-generation and filtering/aggregation pipeline of the
Streamlit sales-dashboard app (`src/app.py`).

The app's pipeline is embedded shallowly:

* calendar dates (`pd.date_range('2023-01-01', '2023-12-31', freq='D')`) are
  modelled by a `Date` structure with explicit Gregorian-calendar arithmetic;
* a data row (`Date`, `Sales`, `Category`, `Region`) is a `Record`,
  polymorphic in the type of the sales value so that the query layer can be
  stated over arbitrary datasets and remain executable, while the generated
  data instantiates it at `ℝ` (the idealisation of numpy's float64);
* numpy's seeded pseudo-random generator (`np.random.seed(42)` followed by
  vectorized `randint` / `choice` calls) is deterministic once seeded, so it
  is modelled by `NumpyRNG`, an explicit family of integer streams: the
  stream the seeded state yields is passed explicitly, which is the standard
  explicit-state-passing embedding of the hidden global RNG state;
* `np.sin` is modelled by `Real.sin`;
* the boolean-mask filters of lines 73 and 132-135 of `app.py`, the
  `groupby(...)['Sales'].sum()` of line 107, the `['Sales'].sum()` of line 80
  and the `to_csv(index=False).encode('utf-8')` of line 142 are embedded as
  list functions below.
-/

/-- A calendar date, as carried by the `Date` column of the dataframe. -/
structure Date where
  year : Nat
  month : Nat
  day : Nat
deriving DecidableEq

/-- Gregorian leap-year test (numpy/pandas calendar). -/
def isLeap (y : Nat) : Bool :=
  (y % 4 == 0 && y % 100 != 0) || y % 400 == 0

/-- Number of days of month `m` (1-12) of year `y`. -/
def daysInMonth (y m : Nat) : Nat :=
  if m == 2 then (if isLeap y then 29 else 28)
  else if m == 4 || m == 6 || m == 9 || m == 11 then 30
  else 31

/-- The calendar successor of a date (the `freq='D'` step of
`pd.date_range`). -/
def nextDay (d : Date) : Date :=
  if d.day < daysInMonth d.year d.month then ⟨d.year, d.month, d.day + 1⟩
  else if d.month < 12 then ⟨d.year, d.month + 1, 1⟩
  else ⟨d.year + 1, 1, 1⟩

/-- Leap years strictly before year `y` (proleptic Gregorian). -/
def leapsBefore (y : Nat) : Nat :=
  (y - 1) / 4 - (y - 1) / 100 + (y - 1) / 400

/-- Days of all years strictly before year `y`. -/
def daysBeforeYear (y : Nat) : Nat :=
  365 * (y - 1) + leapsBefore y

/-- Days of year `y` strictly before month `m`. -/
def daysBeforeMonth (y m : Nat) : Nat :=
  ((List.range (m - 1)).map (fun k => daysInMonth y (k + 1))).sum

/-- Proleptic-Gregorian day ordinal of a date (0 for 0001-01-01); this is
how `pd.date_range` sizes the run of daily periods between two endpoints. -/
def toOrdinal (d : Date) : Nat :=
  daysBeforeYear d.year + daysBeforeMonth d.year d.month + (d.day - 1)

/-- Number of daily periods of `pd.date_range(s, e, freq='D')`, both
endpoints included. -/
def rangeDays (s e : Date) : Nat :=
  toOrdinal e + 1 - toOrdinal s

/-- The run of `n` consecutive calendar days starting at `d`. -/
def dateRangeAux (d : Date) : Nat → List Date
  | 0 => []
  | n + 1 => d :: dateRangeAux (nextDay d) n

/-- Embedding of `pd.date_range(start, end, freq='D')`: the consecutive
calendar days from `s` to `e`, both included. -/
def date_range (s e : Date) : List Date :=
  dateRangeAux s (rangeDays s e)

/-- The date sequence the generator builds
(`pd.date_range(start='2023-01-01', end='2023-12-31', freq='D')`,
line 44 of `app.py`). -/
def dates2023 : List Date :=
  date_range ⟨2023, 1, 1⟩ ⟨2023, 12, 31⟩

/-- One row of the dataframe built on lines 50-55 of `app.py`.  The sales
value is kept polymorphic: the query layer never computes with it, and the
generator instantiates it at `ℝ`. -/
structure Record (α : Type) where
  date : Date
  sales : α
  category : String
  region : String
deriving DecidableEq

/-- The fixed category pool of line 47 of `app.py`. -/
def categoryPool : List String :=
  ["Electronics", "Clothing", "Food", "Books", "Home"]

/-- The fixed region pool of line 48 of `app.py`. -/
def regionPool : List String :=
  ["North", "South", "East", "West", "Central"]

/-- Model of numpy's legacy global PRNG after `np.random.seed(seed)`: once
seeded, the generator is a deterministic stream, so the three vectorized
draws of lines 46-48 of `app.py` are modelled by three explicit integer
streams determined by the seeded state.  `randintStream lo hi i` is the
`i`-th entry of `np.random.randint(lo, hi, size=n)` (contract: a uniform
value in `[lo, hi)`); `catStream i` / `regStream i` are the `i`-th pool
indices drawn by the two `np.random.choice` calls (contract: an index
below the pool size). -/
structure NumpyRNG where
  randintStream : Nat → Nat → Nat → Nat
  catStream : Nat → Nat
  regStream : Nat → Nat

/-- Embedding of `generate_data` (lines 42-56 of `app.py`), with the seeded
PRNG state passed explicitly: builds the 2023 daily date sequence and, for
each index `i`, the sales value
`np.random.randint(100, 1000, size=n)[i] + np.sin(i * 0.1) * 100`, a
category `np.random.choice(categoryPool, size=n)[i]` and a region
`np.random.choice(regionPool, size=n)[i]`, alignment by position exactly as
in the dataframe constructor. -/
noncomputable def generate_data (rng : NumpyRNG) : List (Record ℝ) :=
  (List.range dates2023.length).map (fun i =>
    { date := dates2023.getD i ⟨1, 1, 1⟩
      sales := (rng.randintStream 100 1000 i : ℝ) + Real.sin ((i : ℝ) * 0.1) * 100
      category := categoryPool.getD (rng.catStream i) ""
      region := regionPool.getD (rng.regStream i) "" })

/-- Date comparison `a <= b` (the order of `datetime.date` values used by the
boolean masks on line 73 of `app.py`): lexicographic on
(year, month, day). -/
def dateLe (a b : Date) : Bool :=
  a.year < b.year ||
    (a.year == b.year &&
      (a.month < b.month || (a.month == b.month && a.day ≤ b.day)))

/-- Strict date comparison `a < b`: lexicographic on (year, month, day). -/
def dateLt (a b : Date) : Bool :=
  a.year < b.year ||
    (a.year == b.year &&
      (a.month < b.month || (a.month == b.month && a.day < b.day)))

/-- Boolean chain checker: `p` holds between each pair of adjacent
elements. -/
def chainB (p : Date → Date → Bool) : List Date → Bool
  | [] => true
  | [_] => true
  | a :: b :: t => p a b && chainB p (b :: t)

/-- Embedding of the date-range mask of line 73 of `app.py`:
`data[(data['Date'].dt.date >= start_date) & (data['Date'].dt.date <= end_date)]`. -/
def filterByDateRange {α : Type} (data : List (Record α)) (s e : Date) :
    List (Record α) :=
  data.filter (fun r => dateLe s r.date && dateLe r.date e)

/-- Embedding of the membership mask of lines 132-135 of `app.py`:
`data[(data['Category'].isin(selected_categories)) & (data['Region'].isin(selected_regions))]`. -/
def filterByMembership {α : Type} (data : List (Record α))
    (cats regs : List String) : List (Record α) :=
  data.filter (fun r => cats.contains r.category && regs.contains r.region)

/-- Embedding of `filtered_data['Sales'].sum()` (line 80 of `app.py`, the
Total Sales metric). -/
def totalSales {α : Type} [Add α] [Zero α] (data : List (Record α)) : α :=
  (data.map (fun r => r.sales)).sum

/-- Embedding of `filtered_data.groupby('Category')['Sales'].sum()`
(line 107 of `app.py`): one key per distinct category observed in the data,
each mapped to the summed sales of its rows.  (pandas sorts the keys; the
key order is irrelevant to every claim below, so first-appearance order is
used.) -/
def groupSumByCategory {α : Type} [Add α] [Zero α]
    (data : List (Record α)) : List (String × α) :=
  ((data.map (fun r => r.category)).dedup).map
    (fun c => (c, totalSales (data.filter (fun r => r.category == c))))

/-- Embedding of `data['Date'].min()` (line 68 of `app.py`) on a nonempty
dataset: the least date of the rows (junk value `0001-01-01` on an empty
dataset, where pandas yields NaT). -/
def minDate {α : Type} (data : List (Record α)) : Date :=
  match data.map (fun r => r.date) with
  | [] => ⟨1, 1, 1⟩
  | d :: t => t.foldl (fun a b => if dateLe a b then a else b) d

/-- Embedding of `data['Date'].max()` (line 70 of `app.py`) on a nonempty
dataset: the greatest date of the rows (junk value on an empty dataset). -/
def maxDate {α : Type} (data : List (Record α)) : Date :=
  match data.map (fun r => r.date) with
  | [] => ⟨1, 1, 1⟩
  | d :: t => t.foldl (fun a b => if dateLe b a then a else b) d

set_option maxRecDepth 8000

theorem dateLe_refl (a : Date) : dateLe a a = true := by
  simp [dateLe]

theorem dateLe_trans (a b c : Date) (h1 : dateLe a b = true)
    (h2 : dateLe b c = true) : dateLe a c = true := by
  simp only [dateLe, Bool.or_eq_true, Bool.and_eq_true, beq_iff_eq,
    decide_eq_true_eq] at *
  omega

theorem dateLe_total (a b : Date) : dateLe a b = true ∨ dateLe b a = true := by
  simp only [dateLe, Bool.or_eq_true, Bool.and_eq_true, beq_iff_eq,
    decide_eq_true_eq]
  omega

theorem dateLt_trans (a b c : Date) (h1 : dateLt a b = true)
    (h2 : dateLt b c = true) : dateLt a c = true := by
  simp only [dateLt, Bool.or_eq_true, Bool.and_eq_true, beq_iff_eq,
    decide_eq_true_eq] at *
  omega

theorem dateLt_ne (a b : Date) (h : dateLt a b = true) : a ≠ b := by
  intro he
  subst he
  simp [dateLt] at h

theorem chainB_iff_chain (p : Date → Date → Bool) (l : List Date) :
    chainB p l = true ↔ List.Chain' (fun a b => p a b = true) l := by
  match l with
  | [] => simp [chainB]
  | [a] => simp [chainB]
  | a :: b :: t =>
    rw [chainB, Bool.and_eq_true, chainB_iff_chain p (b :: t),
      List.chain'_cons]

theorem chainB_pairwise (p : Date → Date → Bool)
    (hp : ∀ a b c, p a b = true → p b c = true → p a c = true) :
    ∀ l : List Date, chainB p l = true →
      List.Pairwise (fun a b => p a b = true) l
  | [] => fun _ => List.Pairwise.nil
  | [a] => fun _ => List.pairwise_singleton _ a
  | a :: b :: t => fun h => by
    rw [chainB, Bool.and_eq_true] at h
    have ih := chainB_pairwise p hp (b :: t) h.2
    refine List.Pairwise.cons ?_ ih
    intro c hc
    rcases List.mem_cons.mp hc with hcb | hct
    · exact hcb ▸ h.1
    · exact hp a b c h.1 ((List.pairwise_cons.mp ih).1 c hct)

theorem map_getD_range {α : Type} (l : List α) (d : α) :
    (List.range l.length).map (fun i => l.getD i d) = l := by
  induction l with
  | nil => simp
  | cons a t ih =>
    rw [List.length_cons, List.range_succ_eq_map, List.map_cons,
      List.map_map]
    simp only [List.getD_cons_zero, Function.comp]
    congr 1

theorem dates2023_length : dates2023.length = 365 := by decide

theorem dates2023_chain_next :
    chainB (fun a b => b == nextDay a) dates2023 = true := by decide

theorem dates2023_chain_lt : chainB dateLt dates2023 = true := by decide

theorem dates2023_head : dates2023.head? = some ⟨2023, 1, 1⟩ := by decide

theorem dates2023_mem_last : (⟨2023, 12, 31⟩ : Date) ∈ dates2023 := by decide

theorem dates2023_bounds :
    ∀ d ∈ dates2023,
      (dateLe ⟨2023, 1, 1⟩ d && dateLe d ⟨2023, 12, 31⟩) = true ∧
        d.year = 2023 := by decide

theorem generate_data_map_date (rng : NumpyRNG) :
    (generate_data rng).map (fun r => r.date) = dates2023 := by
  unfold generate_data
  rw [List.map_map]
  exact map_getD_range dates2023 ⟨1, 1, 1⟩

/-- C1: with the seeded PRNG state passed explicitly, `generate_data`
produces exactly 365 records, one per calendar day of 2023: the date
sequence is contiguous (each date is the calendar successor of the
previous one), strictly increasing, duplicate-free, starts at 2023-01-01,
contains 2023-12-31, and every date lies between those two endpoints in
year 2023. -/
theorem claim1_completeness (rng : NumpyRNG) :
    (generate_data rng).length = 365
    ∧ List.Chain' (fun a b => b = nextDay a)
        ((generate_data rng).map (fun r => r.date))
    ∧ List.Pairwise (fun a b => dateLt a b = true)
        ((generate_data rng).map (fun r => r.date))
    ∧ ((generate_data rng).map (fun r => r.date)).Nodup
    ∧ ((generate_data rng).map (fun r => r.date)).head? = some ⟨2023, 1, 1⟩
    ∧ (⟨2023, 12, 31⟩ : Date) ∈ (generate_data rng).map (fun r => r.date)
    ∧ ∀ r ∈ generate_data rng,
        (dateLe ⟨2023, 1, 1⟩ r.date && dateLe r.date ⟨2023, 12, 31⟩) = true
          ∧ r.date.year = 2023 := by
  have hmap := generate_data_map_date rng
  have hpw : List.Pairwise (fun a b => dateLt a b = true) dates2023 :=
    chainB_pairwise dateLt dateLt_trans dates2023 dates2023_chain_lt
  refine ⟨?_, ?_, ?_, ?_, ?_, ?_, ?_⟩
  · have hl := congrArg List.length hmap
    rwa [List.length_map, dates2023_length] at hl
  · rw [hmap]
    exact ((chainB_iff_chain _ dates2023).mp dates2023_chain_next).imp
      (fun _ _ hab => beq_iff_eq.mp hab)
  · rw [hmap]
    exact hpw
  · rw [hmap]
    exact hpw.imp (fun h => dateLt_ne _ _ h)
  · rw [hmap]
    exact dates2023_head
  · rw [hmap]
    exact dates2023_mem_last
  · intro r hr
    have hd : r.date ∈ dates2023 := by
      rw [← hmap]
      exact List.mem_map_of_mem (fun r => r.date) hr
    exact dates2023_bounds r.date hd

/-- Junk row used as the default of positional lookups. -/
noncomputable def defaultRecord : Record ℝ :=
  ⟨⟨1, 1, 1⟩, 0, "", ""⟩

/-- A concrete PRNG-stream model used to witness the hypotheses of the
claims below: every `randint(lo, hi)` draw is `lo`, every pool index 0. -/
def witnessRNG : NumpyRNG :=
  ⟨fun lo _ _ => lo, fun _ => 0, fun _ => 0⟩

/-- C2: the sales value at index `i` of the generated sequence is the `i`-th
uniform `randint(100, 1000)` draw of the seeded stream plus
`100 * sin(0.1 * i)`. -/
theorem claim2_sales_formula (rng : NumpyRNG) (i : Nat) (h : i < 365) :
    ((generate_data rng).getD i defaultRecord).sales
      = (rng.randintStream 100 1000 i : ℝ) + 100 * Real.sin (0.1 * (i : ℝ)) := by
  unfold generate_data
  have hi : i < dates2023.length := by
    rw [dates2023_length]
    exact h
  rw [List.getD_eq_getElem?_getD, List.getElem?_map, List.getElem?_range hi]
  simp only [Option.map_some', Option.getD_some]
  ring_nf

/-- Witness for C2 at the concrete stream `witnessRNG` and index 0. -/
theorem claim2_sales_formula_witness :
    0 < 365 ∧
      ((generate_data witnessRNG).getD 0 defaultRecord).sales
        = (witnessRNG.randintStream 100 1000 0 : ℝ)
          + 100 * Real.sin (0.1 * ((0 : Nat) : ℝ)) :=
  ⟨by decide, claim2_sales_formula witnessRNG 0 (by decide)⟩

/-- C7: determinism.  Seeding is embedded by passing the PRNG state
explicitly, so two runs that start from the state produced by the same seed
(42) receive equal stream families and yield identical record sequences:
same length and the same date, sales, category and region values in the
same order. -/
theorem claim7_determinism (rng1 rng2 : NumpyRNG) (h : rng1 = rng2) :
    (generate_data rng1).length = (generate_data rng2).length
    ∧ generate_data rng1 = generate_data rng2
    ∧ ∀ i, (generate_data rng1).getD i defaultRecord
        = (generate_data rng2).getD i defaultRecord := by
  subst h
  exact ⟨rfl, rfl, fun _ => rfl⟩

/-- Witness for C7: the two runs at the concrete stream `witnessRNG`. -/
theorem claim7_determinism_witness :
    (generate_data witnessRNG).length = (generate_data witnessRNG).length
    ∧ generate_data witnessRNG = generate_data witnessRNG
    ∧ ∀ i, (generate_data witnessRNG).getD i defaultRecord
        = (generate_data witnessRNG).getD i defaultRecord :=
  claim7_determinism witnessRNG witnessRNG rfl

/-- C10: whenever the seeded stream obeys the `randint(100, 1000)` lower
bound (every draw is at least 100), every generated sales value is
nonnegative, because the sinusoidal term is at least `-100`. -/
theorem claim10_sales_nonneg (rng : NumpyRNG)
    (hr : ∀ i, 100 ≤ rng.randintStream 100 1000 i) :
    ∀ r ∈ generate_data rng, 0 ≤ r.sales := by
  intro r hrm
  unfold generate_data at hrm
  rcases List.mem_map.mp hrm with ⟨i, _, rfl⟩
  have h1 : (100 : ℝ) ≤ (rng.randintStream 100 1000 i : ℝ) := by
    exact_mod_cast hr i
  have h2 : -1 ≤ Real.sin ((i : ℝ) * 0.1) := Real.neg_one_le_sin _
  simp only
  linarith

/-- Witness for C10 at the concrete stream `witnessRNG`. -/
theorem claim10_sales_nonneg_witness :
    (∀ i, 100 ≤ witnessRNG.randintStream 100 1000 i)
    ∧ ∀ r ∈ generate_data witnessRNG, 0 ≤ r.sales :=
  ⟨fun _ => le_refl 100,
    claim10_sales_nonneg witnessRNG (fun _ => le_refl 100)⟩

/-- A small concrete dataset used by the witnesses of the filter claims. -/
def sampleData : List (Record Nat) :=
  [⟨⟨2023, 1, 5⟩, 7, "Food", "North"⟩,
   ⟨⟨2023, 3, 14⟩, 15, "Books", "East"⟩]

/-- C3: the date-range filter keeps exactly the records whose date lies in
`[start, end]`, both bounds inclusive: membership characterisation, count
equal to a brute-force predicate scan, and an empty result (not an error)
whenever `start > end`. -/
theorem claim3_dateRange_filter {α : Type} (data : List (Record α))
    (s e : Date) :
    (∀ r, r ∈ filterByDateRange data s e ↔
        r ∈ data ∧ dateLe s r.date = true ∧ dateLe r.date e = true)
    ∧ (filterByDateRange data s e).length
        = data.countP (fun r => dateLe s r.date && dateLe r.date e)
    ∧ (dateLe s e = false → filterByDateRange data s e = []) := by
  refine ⟨?_, ?_, ?_⟩
  · intro r
    rw [filterByDateRange, List.mem_filter, Bool.and_eq_true]
  · rw [filterByDateRange, List.countP_eq_length_filter]
  · intro hse
    rw [filterByDateRange, List.filter_eq_nil_iff]
    intro r _
    intro hcontra
    rw [Bool.and_eq_true] at hcontra
    have := dateLe_trans s r.date e hcontra.1 hcontra.2
    rw [hse] at this
    cases this

/-- Witness for C3: on the concrete dataset, the filter with
`start = 2023-02-01 > end = 2023-01-01` returns the empty sequence. -/
theorem claim3_dateRange_filter_witness :
    filterByDateRange sampleData ⟨2023, 2, 1⟩ ⟨2023, 1, 1⟩ = [] :=
  (claim3_dateRange_filter sampleData ⟨2023, 2, 1⟩ ⟨2023, 1, 1⟩).2.2
    (by decide)

/-- C6: the membership filter keeps exactly the records whose category is in
the selected category set AND whose region is in the selected region set;
an empty selection on either side gives the empty result. -/
theorem claim6_membership_filter {α : Type} (data : List (Record α))
    (cats regs : List String) :
    (∀ r, r ∈ filterByMembership data cats regs ↔
        r ∈ data ∧ r.category ∈ cats ∧ r.region ∈ regs)
    ∧ (cats = [] → filterByMembership data cats regs = [])
    ∧ (regs = [] → filterByMembership data cats regs = []) := by
  refine ⟨?_, ?_, ?_⟩
  · intro r
    simp only [filterByMembership, List.mem_filter, Bool.and_eq_true,
      List.contains, List.elem_iff]
  · intro h
    subst h
    simp [filterByMembership]
  · intro h
    subst h
    simp [filterByMembership]

/-- Witness for C6: on the concrete dataset, an empty category selection
yields the empty result. -/
theorem claim6_membership_filter_witness :
    filterByMembership sampleData [] ["North", "East"] = [] :=
  (claim6_membership_filter sampleData [] ["North", "East"]).2.1 rfl

/-- C8: both filters are order-preserving: the result is a sublist of the
source (same records, same relative order), so any strictly ascending date
order of the source is preserved by every filtered view. -/
theorem claim8_filters_order_preserving {α : Type} (data : List (Record α))
    (s e : Date) (cats regs : List String) :
    (filterByDateRange data s e).Sublist data
    ∧ (filterByMembership data cats regs).Sublist data
    ∧ (List.Pairwise (fun a b : Record α => dateLt a.date b.date = true)
          data →
        List.Pairwise (fun a b => dateLt a.date b.date = true)
          (filterByDateRange data s e)
        ∧ List.Pairwise (fun a b => dateLt a.date b.date = true)
          (filterByMembership data cats regs)) := by
  refine ⟨List.filter_sublist data, List.filter_sublist data, fun hp => ?_⟩
  exact ⟨hp.sublist (List.filter_sublist data),
    hp.sublist (List.filter_sublist data)⟩

/-- Witness for C8: the concrete dataset is strictly date-sorted, and the
filtered views stay strictly date-sorted. -/
theorem claim8_filters_order_preserving_witness :
    List.Pairwise (fun a b => dateLt a.date b.date = true)
      (filterByDateRange sampleData ⟨2023, 1, 1⟩ ⟨2023, 12, 31⟩)
    ∧ List.Pairwise (fun a b => dateLt a.date b.date = true)
      (filterByMembership sampleData ["Food", "Books"] ["North", "East"]) :=
  (claim8_filters_order_preserving sampleData ⟨2023, 1, 1⟩ ⟨2023, 12, 31⟩
    ["Food", "Books"] ["North", "East"]).2.2 (by decide)

theorem foldlMin_le_init (t : List Date) (a : Date) :
    dateLe (t.foldl (fun x y => if dateLe x y then x else y) a) a = true := by
  induction t generalizing a with
  | nil => exact dateLe_refl a
  | cons b t ih =>
    simp only [List.foldl_cons]
    by_cases h : dateLe a b = true
    · rw [if_pos h]
      exact ih a
    · rw [if_neg h]
      have hba : dateLe b a = true := by
        rcases dateLe_total a b with hab | hba
        · exact absurd hab h
        · exact hba
      exact dateLe_trans _ b a (ih b) hba

theorem foldlMin_le_mem (t : List Date) (a : Date) :
    ∀ b ∈ t, dateLe (t.foldl (fun x y => if dateLe x y then x else y) a) b
      = true := by
  induction t generalizing a with
  | nil =>
    intro b hb
    cases hb
  | cons c t ih =>
    intro b hb
    simp only [List.foldl_cons]
    rcases List.mem_cons.mp hb with rfl | hbt
    · have h1 := foldlMin_le_init t (if dateLe a b then a else b)
      have h2 : dateLe (if dateLe a b then a else b) b = true := by
        by_cases h : dateLe a b = true
        · rw [if_pos h]
          exact h
        · rw [if_neg h]
          exact dateLe_refl b
      exact dateLe_trans _ _ _ h1 h2
    · exact ih (if dateLe a c then a else c) b hbt

theorem foldlMax_ge_init (t : List Date) (a : Date) :
    dateLe a (t.foldl (fun x y => if dateLe y x then x else y) a) = true := by
  induction t generalizing a with
  | nil => exact dateLe_refl a
  | cons b t ih =>
    simp only [List.foldl_cons]
    by_cases h : dateLe b a = true
    · rw [if_pos h]
      exact ih a
    · rw [if_neg h]
      have hab : dateLe a b = true := by
        rcases dateLe_total b a with hba | hab
        · exact absurd hba h
        · exact hab
      exact dateLe_trans a b _ hab (ih b)

theorem foldlMax_ge_mem (t : List Date) (a : Date) :
    ∀ b ∈ t, dateLe b (t.foldl (fun x y => if dateLe y x then x else y) a)
      = true := by
  induction t generalizing a with
  | nil =>
    intro b hb
    cases hb
  | cons c t ih =>
    intro b hb
    simp only [List.foldl_cons]
    rcases List.mem_cons.mp hb with rfl | hbt
    · have h1 := foldlMax_ge_init t (if dateLe b a then a else b)
      have h2 : dateLe b (if dateLe b a then a else b) = true := by
        by_cases h : dateLe b a = true
        · rw [if_pos h]
          exact h
        · rw [if_neg h]
          exact dateLe_refl b
      exact dateLe_trans _ _ _ h2 h1
    · exact ih (if dateLe c a then a else c) b hbt

theorem minDate_le {α : Type} (data : List (Record α)) (h : data ≠ []) :
    ∀ r ∈ data, dateLe (minDate data) r.date = true := by
  intro r hr
  match data, hr with
  | r0 :: t, hr =>
    rw [minDate]
    simp only [List.map_cons]
    rcases List.mem_cons.mp hr with rfl | hrt
    · exact foldlMin_le_init (t.map (fun r => r.date)) r.date
    · exact foldlMin_le_mem (t.map (fun r => r.date)) r0.date r.date
        (List.mem_map_of_mem (fun r => r.date) hrt)

theorem maxDate_ge {α : Type} (data : List (Record α)) (h : data ≠ []) :
    ∀ r ∈ data, dateLe r.date (maxDate data) = true := by
  intro r hr
  match data, hr with
  | r0 :: t, hr =>
    rw [maxDate]
    simp only [List.map_cons]
    rcases List.mem_cons.mp hr with rfl | hrt
    · exact foldlMax_ge_init (t.map (fun r => r.date)) r.date
    · exact foldlMax_ge_mem (t.map (fun r => r.date)) r0.date r.date
        (List.mem_map_of_mem (fun r => r.date) hrt)

/-- C9: all-inclusive filtering is the identity: the date-range filter with
the dataset's minimum and maximum dates as bounds returns the whole dataset
unchanged (on a nonempty dataset), and the membership filter with the
dataset's distinct categories and distinct regions as selections returns
the whole dataset unchanged. -/
theorem claim9_full_filters_identity {α : Type} (data : List (Record α)) :
    (data ≠ [] →
      filterByDateRange data (minDate data) (maxDate data) = data)
    ∧ filterByMembership data ((data.map (fun r => r.category)).dedup)
        ((data.map (fun r => r.region)).dedup) = data := by
  constructor
  · intro h
    rw [filterByDateRange, List.filter_eq_self]
    intro r hr
    rw [Bool.and_eq_true]
    exact ⟨minDate_le data h r hr, maxDate_ge data h r hr⟩
  · rw [filterByMembership, List.filter_eq_self]
    intro r hr
    rw [Bool.and_eq_true]
    constructor
    · rw [List.contains, List.elem_iff]
      exact List.mem_dedup.mpr
        (List.mem_map_of_mem (fun r => r.category) hr)
    · rw [List.contains, List.elem_iff]
      exact List.mem_dedup.mpr (List.mem_map_of_mem (fun r => r.region) hr)

/-- Witness for C9: on the concrete dataset the min-to-max date filter is
the identity. -/
theorem claim9_full_filters_identity_witness :
    filterByDateRange sampleData (minDate sampleData) (maxDate sampleData)
      = sampleData :=
  (claim9_full_filters_identity sampleData).1 (by decide)

theorem map_sum_if_add {α : Type} [AddCommMonoid α] (ks : List String)
    (hnd : ks.Nodup) (c : String) (hc : c ∈ ks) (x : α) (f : String → α) :
    (ks.map (fun k => if k = c then x + f k else f k)).sum
      = x + (ks.map f).sum := by
  induction ks with
  | nil => cases hc
  | cons a t ih =>
    rw [List.map_cons, List.sum_cons, List.map_cons, List.sum_cons]
    rcases List.mem_cons.mp hc with heq | hct
    · rw [if_pos heq.symm]
      have ha : a ∉ t := (List.nodup_cons.mp hnd).1
      have hmap : t.map (fun k => if k = c then x + f k else f k)
          = t.map f := by
        apply List.map_congr_left
        intro k hk
        rw [if_neg]
        intro hka
        exact ha ((hka.trans heq) ▸ hk)
      rw [hmap, add_assoc]
    · have hac : a ≠ c := by
        intro heq
        exact (List.nodup_cons.mp hnd).1 (heq ▸ hct)
      rw [if_neg hac, ih (List.nodup_cons.mp hnd).2 hct, ← add_assoc,
        add_comm (f a) x, add_assoc]

theorem sum_fibers {α : Type} [AddCommMonoid α] (ks : List String)
    (hnd : ks.Nodup) :
    ∀ l : List (Record α), (∀ r ∈ l, r.category ∈ ks) →
      (ks.map (fun c =>
          ((l.filter (fun r => r.category == c)).map
            (fun r => r.sales)).sum)).sum
        = (l.map (fun r => r.sales)).sum := by
  intro l
  induction l with
  | nil =>
    intro _
    simp
  | cons r t ih =>
    intro hcov
    have hpt : ∀ c ∈ ks,
        (((r :: t).filter (fun x => x.category == c)).map
          (fun x => x.sales)).sum
          = if c = r.category
              then r.sales +
                ((t.filter (fun x => x.category == c)).map
                  (fun x => x.sales)).sum
              else ((t.filter (fun x => x.category == c)).map
                (fun x => x.sales)).sum := by
      intro c _
      by_cases hcc : c = r.category
      · rw [if_pos hcc, List.filter_cons, if_pos (by simp [hcc]),
          List.map_cons, List.sum_cons]
      · rw [if_neg hcc, List.filter_cons,
          if_neg (by simp only [beq_iff_eq]; exact fun hcr => hcc hcr.symm)]
    rw [List.map_congr_left hpt,
      map_sum_if_add ks hnd r.category
        (hcov r (List.mem_cons_self r t))
        r.sales
        (fun c => ((t.filter (fun x => x.category == c)).map
          (fun x => x.sales)).sum),
      ih (fun x hx => hcov x (List.mem_cons_of_mem r hx)),
      List.map_cons, List.sum_cons]

/-- C4: grouping partitions the sales total: the sum of the grouped-by-
category sales sums equals the Total Sales metric over the same
(nonempty) dataset. -/
theorem claim4_grouping_partitions_total {α : Type} [AddCommMonoid α]
    (data : List (Record α)) (h : data ≠ []) :
    ((groupSumByCategory data).map (fun kv => kv.2)).sum
      = totalSales data := by
  rw [groupSumByCategory, List.map_map]
  simp only [totalSales, Function.comp]
  exact sum_fibers ((data.map (fun r => r.category)).dedup)
    (List.nodup_dedup _) data
    (fun r hr => List.mem_dedup.mpr
      (List.mem_map_of_mem (fun r => r.category) hr))

/-- Witness for C4 on the concrete dataset. -/
theorem claim4_grouping_partitions_total_witness :
    sampleData ≠ [] ∧
      ((groupSumByCategory sampleData).map (fun kv => kv.2)).sum
        = totalSales sampleData :=
  ⟨by decide, claim4_grouping_partitions_total sampleData (by decide)⟩

/-- The decimal digit character of `n % 10`. -/
def digitChar (n : Nat) : Char :=
  match n % 10 with
  | 0 => '0'
  | 1 => '1'
  | 2 => '2'
  | 3 => '3'
  | 4 => '4'
  | 5 => '5'
  | 6 => '6'
  | 7 => '7'
  | 8 => '8'
  | _ => '9'

/-- Zero-padded ISO `YYYY-MM-DD` rendering of a date: how pandas
`to_csv` writes a midnight `datetime64` value of the `Date` column. -/
def dateToIso (d : Date) : String :=
  String.mk [digitChar (d.year / 1000), digitChar (d.year / 100),
    digitChar (d.year / 10), digitChar d.year, '-',
    digitChar (d.month / 10), digitChar d.month, '-',
    digitChar (d.day / 10), digitChar d.day]

/-- The header row `to_csv(index=False)` emits for the dataframe's column
order of lines 50-55 of `app.py`. -/
def csvHeader : String := "Date,Sales,Category,Region"

/-- One CSV data line: date, sales (rendered by the float formatter `fmt`),
category, region — and nothing else (no index column). -/
def csvRow {α : Type} (fmt : α → String) (r : Record α) : String :=
  dateToIso r.date ++ "," ++ fmt r.sales ++ "," ++ r.category ++ ","
    ++ r.region

/-- The `\n`-terminated data lines, one per record, in order. -/
def csvBody {α : Type} (fmt : α → String) : List (Record α) → String
  | [] => ""
  | r :: t => csvRow fmt r ++ "\n" ++ csvBody fmt t

/-- Embedding of `filtered_data.to_csv(index=False)` (line 142 of
`app.py`): the header row then one line per record, each line terminated by
`\n`; the rendering of the float Sales column is the parameter `fmt`. -/
def to_csv {α : Type} (fmt : α → String) (data : List (Record α)) :
    String :=
  csvHeader ++ "\n" ++ csvBody fmt data

/-- Embedding of `.encode('utf-8')` (line 142 of `app.py`): the UTF-8
bytes of the CSV text. -/
def to_csv_bytes {α : Type} (fmt : α → String)
    (data : List (Record α)) : ByteArray :=
  (to_csv fmt data).toUTF8

/-- A nonempty all-digit character run. -/
def digitRun : List Char → Bool
  | [] => false
  | l => l.all Char.isDigit

/-- Shape of an unsigned plain decimal numeral: a digit run, optionally
followed by a dot and a fractional digit run; no exponent marker. -/
def mantissaShape (l : List Char) : Bool :=
  match l.span Char.isDigit with
  | (ip, []) => digitRun ip
  | (ip, '.' :: fp) => digitRun ip && digitRun fp
  | _ => false

/-- A plain decimal number: optional minus sign then a plain mantissa. -/
def isPlainDecimal (s : String) : Bool :=
  match s.data with
  | '-' :: rest => mantissaShape rest
  | l => mantissaShape l

/-- Shape check for an ISO `YYYY-MM-DD` string: ten characters, digits in
the date positions, dashes at positions 4 and 7. -/
def isIsoShaped (s : String) : Bool :=
  match s.data with
  | [y1, y2, y3, y4, h1, m1, m2, h2, d1, d2] =>
    y1.isDigit && y2.isDigit && y3.isDigit && y4.isDigit && h1 == '-'
      && m1.isDigit && m2.isDigit && h2 == '-' && d1.isDigit && d2.isDigit
  | _ => false

/-- Occurrences of a character in a string. -/
def countChar (c : Char) (s : String) : Nat :=
  s.data.count c

theorem digitChar_isDigit (n : Nat) : (digitChar n).isDigit = true := by
  have h : n % 10 = 0 ∨ n % 10 = 1 ∨ n % 10 = 2 ∨ n % 10 = 3 ∨ n % 10 = 4
      ∨ n % 10 = 5 ∨ n % 10 = 6 ∨ n % 10 = 7 ∨ n % 10 = 8 ∨ n % 10 = 9 := by
    omega
  unfold digitChar
  rcases h with h | h | h | h | h | h | h | h | h | h <;> rw [h] <;> decide

theorem digitChar_beq_false (c : Char) (hc : c.isDigit = false) (n : Nat) :
    (digitChar n == c) = false := by
  rw [beq_eq_false_iff_ne]
  intro heq
  have hd := digitChar_isDigit n
  rw [heq, hc] at hd
  cases hd

theorem countChar_append (c : Char) (s t : String) :
    countChar c (s ++ t) = countChar c s + countChar c t := by
  simp [countChar, String.data_append, List.count_append]

theorem countChar_dateToIso (c : Char) (d : Date)
    (hdig : c.isDigit = false) (hdash : (('-' : Char) == c) = false) :
    countChar c (dateToIso d) = 0 := by
  simp only [countChar, dateToIso]
  simp [List.count_cons, List.count_nil, digitChar_beq_false c hdig, hdash]

theorem dateToIso_isIsoShaped (d : Date) :
    isIsoShaped (dateToIso d) = true := by
  simp only [isIsoShaped, dateToIso]
  simp [digitChar_isDigit]

theorem countChar_csvRow_comma {α : Type} (fmt : α → String)
    (r : Record α) (h1 : countChar ',' (fmt r.sales) = 0)
    (h2 : countChar ',' r.category = 0)
    (h3 : countChar ',' r.region = 0) :
    countChar ',' (csvRow fmt r) = 3 := by
  simp only [csvRow, countChar_append]
  rw [countChar_dateToIso ',' r.date (by decide) (by decide), h1, h2, h3]
  decide

theorem countChar_csvRow_newline {α : Type} (fmt : α → String)
    (r : Record α) (h1 : countChar '\n' (fmt r.sales) = 0)
    (h2 : countChar '\n' r.category = 0)
    (h3 : countChar '\n' r.region = 0) :
    countChar '\n' (csvRow fmt r) = 0 := by
  simp only [csvRow, countChar_append]
  rw [countChar_dateToIso '\n' r.date (by decide) (by decide), h1, h2, h3]
  decide

theorem countChar_csvBody_newline {α : Type} (fmt : α → String)
    (l : List (Record α))
    (h : ∀ r ∈ l, countChar '\n' (csvRow fmt r) = 0) :
    countChar '\n' (csvBody fmt l) = l.length := by
  induction l with
  | nil => rfl
  | cons r t ih =>
    rw [csvBody, countChar_append, countChar_append,
      h r (List.mem_cons_self r t),
      ih (fun x hx => h x (List.mem_cons_of_mem r hx)), List.length_cons]
    have hone : countChar '\n' "\n" = 1 := by decide
    omega

/-- C5: the CSV export is the UTF-8 encoding of: the exact header line
`Date,Sales,Category,Region`, then exactly one line per record (newline
count `length + 1`, each line `\n`-terminated), where each data line
starts with the record's date rendered in zero-padded `YYYY-MM-DD` shape,
carries exactly four comma-separated columns (so no leading or trailing
index column), and renders Sales through the plain-decimal float
formatter. -/
theorem claim5_to_csv_shape {α : Type} (fmt : α → String)
    (data : List (Record α))
    (hfields : ∀ r ∈ data,
      countChar '\n' (fmt r.sales) = 0 ∧ countChar ',' (fmt r.sales) = 0
      ∧ countChar '\n' r.category = 0 ∧ countChar ',' r.category = 0
      ∧ countChar '\n' r.region = 0 ∧ countChar ',' r.region = 0)
    (hdec : ∀ r ∈ data, isPlainDecimal (fmt r.sales) = true) :
    to_csv_bytes fmt data = (to_csv fmt data).toUTF8
    ∧ (∃ body, to_csv fmt data = "Date,Sales,Category,Region\n" ++ body)
    ∧ countChar '\n' (to_csv fmt data) = data.length + 1
    ∧ (∀ r ∈ data, countChar ',' (csvRow fmt r) = 3)
    ∧ (∀ r ∈ data, ∃ rest, csvRow fmt r = dateToIso r.date ++ rest)
    ∧ (∀ d : Date, isIsoShaped (dateToIso d) = true)
    ∧ (∀ r ∈ data, isPlainDecimal (fmt r.sales) = true) := by
  refine ⟨rfl, ⟨csvBody fmt data, rfl⟩, ?_, ?_, ?_,
    dateToIso_isIsoShaped, hdec⟩
  · rw [to_csv, countChar_append, countChar_append,
      countChar_csvBody_newline fmt data
        (fun r hr => countChar_csvRow_newline fmt r (hfields r hr).1
          (hfields r hr).2.2.1 (hfields r hr).2.2.2.2.1)]
    have hhead : countChar '\n' csvHeader = 0 := by decide
    have hone : countChar '\n' "\n" = 1 := by decide
    omega
  · intro r hr
    exact countChar_csvRow_comma fmt r (hfields r hr).2.1
      (hfields r hr).2.2.2.1 (hfields r hr).2.2.2.2.2
  · intro r hr
    refine ⟨"," ++ (fmt r.sales ++ ("," ++ (r.category ++ (","
      ++ r.region)))), ?_⟩
    simp [csvRow, String.append_assoc]

/-- Witness for C5: the concrete dataset with the decimal `Nat` renderer. -/
theorem claim5_to_csv_shape_witness :
    countChar '\n' (to_csv (fun n : Nat => toString n) sampleData)
      = sampleData.length + 1 :=
  (claim5_to_csv_shape (fun n : Nat => toString n) sampleData
    (by decide) (by decide)).2.2.1
